import Mathlib

/-!
Verification of the feed-monitor backend's core decision logic.

The definitions below are a shallow embedding of the Python sources:
* `FeedStatus`, `FeedConfig` — `src/backend/services/feed_monitor.py` and
  `src/backend/models/feed_config.py`;
* `determine_status` — `FeedMonitorService._determine_status`
  (`feed_monitor.py` lines 65-78; identical logic in `main copy 2.py`
  lines 260-272);
* `parse_time_string`, `is_within_tolerance` — `DateUtils`
  (`date_utils.py` lines 69-96);
* `update_feed_status`, `check_feed_status` — `feed_monitor.py`
  lines 24-111 (store writes; the source-count lookup and the
  monitoring-store commit are external collaborators, modelled as an
  `Except`-valued argument and a success flag respectively);
* `get_cob_date` — `date_utils.py` lines 57-67;
* `insert_or_replace_status`, `main_check_feed_status`, `sweep_feeds`,
  `check_all_feeds` — `main copy 2.py` lines 215-258 (the evaluator the
  sweep calls, whose failure path persists nothing) and 274-284.

Dates are modelled as a day index (`Int`); Python's `date.weekday()`
(Monday = 0 … Sunday = 6) becomes `days % 7` with day 0 a Monday.
Timestamps inside one day are seconds since that day's midnight, so
`datetime` comparisons in `is_within_tolerance` (which anchors the
expected time on the actual timestamp's own date) become integer
comparisons on a common timeline.  Strings are processed through their
character lists so every parsing function evaluates by kernel reduction.
-/

/-- The `FeedStatus` string enum (`feed_monitor.py` lines 12-18).
`part` models the Python member `PARTIAL` (its name is a Lean keyword);
`value` recovers each member's string value. -/
inductive FeedStatus where
  | received
  | delayed
  | missing
  | part
  | failed
  | unknown
deriving DecidableEq, Repr

/-- The string value of each `FeedStatus` member. -/
def FeedStatus.value : FeedStatus → String
  | .received => "received"
  | .delayed => "delayed"
  | .missing => "missing"
  | .part => "partial"
  | .failed => "failed"
  | .unknown => "unknown"

/-- Per-feed configuration (`models/feed_config.py` lines 6-15). -/
structure FeedConfig where
  name : String
  source_table : String
  date_column : String
  expected_time : String
  tolerance_minutes : Int
  weekend_expected : Bool
  min_records : Int
  connection_string : String
deriving DecidableEq, Repr

/-- A calendar date as a day index; day 0 is a Monday. -/
structure Date where
  days : Int
deriving DecidableEq, Repr

/-- Python's `date.weekday()`: Monday = 0, …, Sunday = 6. -/
def Date.weekday (d : Date) : Int := d.days % 7

/-- Model of `FeedMonitorService._determine_status` (`feed_monitor.py` lines 65-78).
The weekend branch keeps the source's redundant conditional
(`RECEIVED if record_count == 0 else RECEIVED`); the body never consults an
observation time (the source only carries the comment
"Check if delayed (would need time comparison logic)"). -/
def determine_status (feed_config : FeedConfig) (cob_date : Date)
    (record_count : Int) : FeedStatus :=
  if 5 ≤ cob_date.weekday ∧ ¬feed_config.weekend_expected then
    if record_count = 0 then FeedStatus.received else FeedStatus.received
  else if record_count = 0 then FeedStatus.missing
  else if record_count < feed_config.min_records then FeedStatus.part
  else FeedStatus.received

/-- ASCII whitespace, as stripped by Python's `int(...)`. -/
def isPySpace (c : Char) : Bool :=
  c = ' ' ∨ c = '\t' ∨ c = '\n' ∨ c = '\r'

/-- Strip leading and trailing whitespace from a character list. -/
def trimChars (cs : List Char) : List Char :=
  ((cs.dropWhile isPySpace).reverse.dropWhile isPySpace).reverse

/-- Decimal value of a nonempty all-digit character list, `none` otherwise. -/
def digitsVal? (cs : List Char) : Option Nat :=
  if cs.isEmpty then none
  else cs.foldl (fun acc c =>
    match acc with
    | none => none
    | some n => if c.isDigit then some (10 * n + (c.toNat - 48)) else none)
    (some 0)

/-- Python `int(...)` on a string: strips surrounding whitespace, allows one
leading sign, then decimal digits.  (Digit-group underscores accepted by
CPython are not modelled; no input in this development uses them.) -/
def pyInt? (s : List Char) : Option Int :=
  match trimChars s with
  | '-' :: rest => (digitsVal? rest).map (fun n => -(n : Int))
  | '+' :: rest => (digitsVal? rest).map (fun n => (n : Int))
  | rest => (digitsVal? rest).map (fun n => (n : Int))

/-- Split a character list on a separator character (like `str.split`). -/
def splitOnChar (c : Char) : List Char → List (List Char)
  | [] => [[]]
  | x :: xs =>
    let rest := splitOnChar c xs
    if x = c then [] :: rest
    else match rest with
      | [] => [[x]]
      | r :: rs => (x :: r) :: rs

/-- Model of `DateUtils.parse_time_string` (`date_utils.py` lines 69-77): splits on
`:`, unpacks exactly two integers, and builds `time(hour, minute)` — whose
constructor validates `0 ≤ hour ≤ 23` and `0 ≤ minute ≤ 59`.  Any failure
raises `ValueError`, modelled as `none`. -/
def parse_time_string (time_str : String) : Option (Int × Int) :=
  match (splitOnChar ':' time_str.data).map pyInt? with
  | [some hour, some minute] =>
      if 0 ≤ hour ∧ hour ≤ 23 ∧ 0 ≤ minute ∧ minute ≤ 59 then
        some (hour, minute)
      else none
  | _ => none

/-- A timestamp: a date plus seconds since that date's midnight. -/
structure Timestamp where
  date : Date
  secondOfDay : Int
deriving DecidableEq, Repr

/-- Model of `DateUtils.is_within_tolerance` (`date_utils.py` lines 79-96): parses the
expected time, anchors it on `actual_time`'s own date, and checks
`expected - tolerance ≤ actual ≤ expected + tolerance`; every exception
(including a parse failure) is caught and yields `False`.  Window endpoints
may cross midnight, hence plain `Int` arithmetic on seconds. -/
def is_within_tolerance (expected_time : String) (actual_time : Timestamp)
    (tolerance_minutes : Int) : Bool :=
  match parse_time_string expected_time with
  | none => false
  | some (hour, minute) =>
      let expectedSec : Int := (hour * 60 + minute) * 60
      let tolSec : Int := tolerance_minutes * 60
      decide (expectedSec - tolSec ≤ actual_time.secondOfDay ∧
              actual_time.secondOfDay ≤ expectedSec + tolSec)

/-- The "Order Processing" feed from the default registry
(`main copy 2.py` lines 107-116). -/
def ordersConfig : FeedConfig :=
  { name := "Order Processing"
    source_table := "orders"
    date_column := "order_date"
    expected_time := "10:30"
    tolerance_minutes := 45
    weekend_expected := false
    min_records := 500
    connection_string := "sqlite:///demo.db" }

/-- The "Customer Transactions" feed from the default registry
(`main copy 2.py` lines 87-96). -/
def customersConfig : FeedConfig :=
  { name := "Customer Transactions"
    source_table := "customer_transactions"
    date_column := "transaction_date"
    expected_time := "09:00"
    tolerance_minutes := 60
    weekend_expected := false
    min_records := 1000
    connection_string := "sqlite:///demo.db" }

/-- A persisted feed-status row (`models/database.py`, table `feed_status`). -/
structure FeedStatusRecord where
  feed_name : String
  cob_date : Date
  status : FeedStatus
  record_count : Int
  last_checked : Int
  expected_time : String
  error_message : Option String
deriving DecidableEq, Repr

/-- The row inserted by `_update_feed_status` when no record exists for the
key (`feed_monitor.py` lines 97-106). -/
def newRecord (feed_config : FeedConfig) (cob_date : Date) (status : FeedStatus)
    (record_count : Int) (now : Int) (error_message : Option String) :
    FeedStatusRecord :=
  { feed_name := feed_config.name
    cob_date := cob_date
    status := status
    record_count := record_count
    last_checked := now
    expected_time := feed_config.expected_time
    error_message := error_message }

/-- The field updates applied to an existing record
(`feed_monitor.py` lines 91-95); `expected_time` is left untouched there. -/
def overwrite (status : FeedStatus) (record_count : Int) (now : Int)
    (error_message : Option String) (r : FeedStatusRecord) : FeedStatusRecord :=
  { r with
    status := status
    record_count := record_count
    last_checked := now
    error_message := error_message }

/-- The store write of `_update_feed_status` (`feed_monitor.py` lines 84-108):
query the first record matching (feed name, COB date); update it in place
when found, otherwise append a new row. -/
def update_feed_status (feed_config : FeedConfig) (cob_date : Date)
    (status : FeedStatus) (record_count : Int) (now : Int)
    (error_message : Option String) :
    List FeedStatusRecord → List FeedStatusRecord
  | [] => [newRecord feed_config cob_date status record_count now error_message]
  | r :: rs =>
    if r.feed_name = feed_config.name ∧ r.cob_date = cob_date then
      overwrite status record_count now error_message r :: rs
    else
      r :: update_feed_status feed_config cob_date status record_count now
        error_message rs

/-- One store-write attempt, with the write outcome made explicit:
`_update_feed_status` wraps a single session write in one `try`/`except`
(no retry loop), so exactly one attempt is ever made; a raised persistence
error is caught and logged, leaving the store unchanged and propagating
nothing.  Returns the resulting store and the number of write attempts. -/
def update_feed_status_try (persist_ok : Bool) (feed_config : FeedConfig)
    (cob_date : Date) (status : FeedStatus) (record_count : Int) (now : Int)
    (error_message : Option String) (store : List FeedStatusRecord) :
    List FeedStatusRecord × Nat :=
  if persist_ok then
    (update_feed_status feed_config cob_date status record_count now
      error_message store, 1)
  else (store, 1)

/-- The dict returned by `check_feed_status` (`feed_monitor.py` lines 42-49
and 55-63); the success path carries no `error` key. -/
structure CheckResult where
  feed_name : String
  cob_date : Date
  status : FeedStatus
  record_count : Int
  expected_time : String
  error : Option String
deriving DecidableEq, Repr

/-- Model of `FeedMonitorService.check_feed_status` (`feed_monitor.py` lines 24-63).
The source-count lookup against the external feed source is the fallible
collaborator, modelled by the `lookup` argument: `Except.error e` is a
raised exception with message `e`, caught by the handler at lines 51-63,
which persists a FAILED row with count 0 and message `e` and returns a
FAILED result instead of propagating.  (`_update_feed_status` itself never
raises — it has its own handler — so the outer handler only fires for
lookup failures.)  Returns ((store, write attempts), returned dict). -/
def check_feed_status (persist_ok : Bool) (feed_config : FeedConfig)
    (cob_date : Date) (lookup : Except String Int) (now : Int)
    (store : List FeedStatusRecord) :
    (List FeedStatusRecord × Nat) × CheckResult :=
  match lookup with
  | .ok record_count =>
      let status := determine_status feed_config cob_date record_count
      (update_feed_status_try persist_ok feed_config cob_date status
        record_count now none store,
       { feed_name := feed_config.name
         cob_date := cob_date
         status := status
         record_count := record_count
         expected_time := feed_config.expected_time
         error := none })
  | .error e =>
      (update_feed_status_try persist_ok feed_config cob_date FeedStatus.failed
        0 now (some e) store,
       { feed_name := feed_config.name
         cob_date := cob_date
         status := FeedStatus.failed
         record_count := 0
         expected_time := feed_config.expected_time
         error := some e })

/-- Wall-clock at trigger time: a day index plus the local hour. -/
structure Wallclock where
  days : Int
  hour : Int
deriving DecidableEq, Repr

/-- Model of `DateUtils.get_cob_date` (`date_utils.py` lines 57-67): before 6 AM the
COB date is the previous day, otherwise today. -/
def get_cob_date (now : Wallclock) : Date :=
  if now.hour < 6 then ⟨now.days - 1⟩ else ⟨now.days⟩

/-- Model of the sqlite `INSERT OR REPLACE` upsert in
`FeedMonitor.check_feed_status` (`main copy 2.py` lines 230-235) against the
`feed_status` table with `UNIQUE(feed_name, cob_date)` (lines 156-167):
rows conflicting on the key are deleted and a fresh row is inserted.  That
table has no `error_message` column, so the stored error is `none`, and
`expected_time` is refreshed from the config. -/
def insert_or_replace_status (feed_config : FeedConfig) (cob_date : Date)
    (status : FeedStatus) (record_count : Int) (now : Int)
    (store : List FeedStatusRecord) : List FeedStatusRecord :=
  store.filter
    (fun r => !decide (r.feed_name = feed_config.name ∧ r.cob_date = cob_date))
    ++ [newRecord feed_config cob_date status record_count now none]

/-- Model of `FeedMonitor.check_feed_status` (`main copy 2.py` lines
215-258), the evaluator the sweep calls: counts records through the source
lookup, classifies via `determine_status`, and persists with
`INSERT OR REPLACE`; the exception handler (lines 249-258) returns a FAILED
response with record count 0 and persists **nothing** (and
`FeedStatusResponse` carries no error field, hence `error := none`). -/
def main_check_feed_status (feed_config : FeedConfig) (cob_date : Date)
    (lookup : Except String Int) (now : Int)
    (store : List FeedStatusRecord) : List FeedStatusRecord × CheckResult :=
  match lookup with
  | .ok record_count =>
      let status := determine_status feed_config cob_date record_count
      (insert_or_replace_status feed_config cob_date status record_count now
        store,
       { feed_name := feed_config.name
         cob_date := cob_date
         status := status
         record_count := record_count
         expected_time := feed_config.expected_time
         error := none })
  | .error _ =>
      (store,
       { feed_name := feed_config.name
         cob_date := cob_date
         status := FeedStatus.failed
         record_count := 0
         expected_time := feed_config.expected_time
         error := none })

/-- The per-feed loop of `check_all_feeds` (`main copy 2.py` lines 279-284)
at a fixed target COB date: each feed is evaluated via
`FeedMonitor.check_feed_status` in turn; the totality of
`main_check_feed_status` models the per-feed `try`/`except` (lines 280-284)
that keeps one feed's failure from aborting the rest. -/
def sweep_feeds (feeds : List FeedConfig) (lookup : String → Except String Int)
    (cob_date : Date) (now : Int) (store : List FeedStatusRecord) :
    List FeedStatusRecord :=
  feeds.foldl
    (fun s feed_config =>
      (main_check_feed_status feed_config cob_date (lookup feed_config.name)
        now s).1)
    store

/-- Model of `FeedMonitor.check_all_feeds` (`main copy 2.py` lines 274-284): computes
`yesterday = datetime.now().date() - timedelta(days=1)` — plain
today-minus-one, without calling `get_cob_date` — and runs the per-feed
loop for that date. -/
def check_all_feeds (feeds : List FeedConfig)
    (lookup : String → Except String Int) (wall : Wallclock) (now : Int)
    (store : List FeedStatusRecord) : List FeedStatusRecord :=
  sweep_feeds feeds lookup ⟨wall.days - 1⟩ now store

/-- Notification channels of `AlertingService` (`alerting.py`). -/
inductive Channel where
  | email
  | slack
deriving DecidableEq, Repr

/-- Which channels are enabled (`alerting.py` lines 31, 35). -/
structure AlertChannels where
  emailEnabled : Bool
  slackEnabled : Bool
deriving DecidableEq, Repr

/-- The `alert_data` payload built by `send_alert`
(`alerting.py` lines 21-28; the wall-clock timestamp is external). -/
structure AlertData where
  feed_name : String
  status : String
  cob_date : String
  record_count : Int
  error_message : Option String
deriving DecidableEq, Repr

/-- Model of `AlertingService.send_alert` (`alerting.py` lines 18-39): builds the
payload and dispatches it through each enabled channel, catching channel
errors.  The body inspects neither the status value nor any previous
verdict or re-alert interval.  Returns the dispatch attempts made. -/
def send_alert (channels : AlertChannels) (feed_name : String) (status : String)
    (cob_date : String) (record_count : Int) (error_message : Option String) :
    List (Channel × AlertData) :=
  let alert_data : AlertData :=
    { feed_name := feed_name
      status := status
      cob_date := cob_date
      record_count := record_count
      error_message := error_message }
  (if channels.emailEnabled then [(Channel.email, alert_data)] else []) ++
  (if channels.slackEnabled then [(Channel.slack, alert_data)] else [])

/-- The stored records matching one (feed name, COB date) key. -/
def keyRecords (store : List FeedStatusRecord) (name : String) (cob : Date) :
    List FeedStatusRecord :=
  store.filter (fun r => decide (r.feed_name = name ∧ r.cob_date = cob))

/-- At most one stored record per (feed name, COB date) key. -/
def uniqueKeys (store : List FeedStatusRecord) : Prop :=
  ∀ name cob, (keyRecords store name cob).length ≤ 1

/-- One upsert request: the arguments of a `_update_feed_status` call. -/
structure UpsertOp where
  feed_config : FeedConfig
  cob_date : Date
  status : FeedStatus
  record_count : Int
  now : Int
  error_message : Option String
deriving DecidableEq, Repr

/-- Apply one upsert request to the store. -/
def applyOp (op : UpsertOp) (store : List FeedStatusRecord) :
    List FeedStatusRecord :=
  update_feed_status op.feed_config op.cob_date op.status op.record_count
    op.now op.error_message store

/-- Apply a sequence of upsert requests in order. -/
def applyOps (ops : List UpsertOp) (store : List FeedStatusRecord) :
    List FeedStatusRecord :=
  ops.foldl (fun s op => applyOp op s) store

/-- Some record for the given (feed name, COB date) key is in the store. -/
def keyExists (store : List FeedStatusRecord) (name : String) (cob : Date) :
    Prop :=
  ∃ r ∈ store, r.feed_name = name ∧ r.cob_date = cob

/-- A sample upsert request used as a concrete witness input. -/
def op0 : UpsertOp :=
  { feed_config := ordersConfig
    cob_date := ⟨1⟩
    status := FeedStatus.received
    record_count := 600
    now := 10
    error_message := none }

/-- C1. A weekend COB date (`weekday ≥ 5`) with `weekend_expected = false`
yields RECEIVED from `_determine_status`, for every record count. -/
theorem weekend_not_expected_received (feed_config : FeedConfig)
    (cob_date : Date) (record_count : Int)
    (hw : 5 ≤ cob_date.weekday) (he : feed_config.weekend_expected = false) :
    determine_status feed_config cob_date record_count = FeedStatus.received := by
  unfold determine_status
  rw [if_pos ⟨hw, by simp [he]⟩]
  split <;> rfl

/-- Witness for C1: Saturday (day 5), the Orders feed, zero records. -/
theorem weekend_not_expected_received_witness :
    determine_status ordersConfig ⟨5⟩ 0 = FeedStatus.received :=
  weekend_not_expected_received ordersConfig ⟨5⟩ 0 (by decide) (by decide)

/-- C2. On a non-excluded day (weekday, or `weekend_expected = true`):
zero records yield MISSING; a positive count below `min_records` yields
PARTIAL; and a positive count with `min_records ≤ 0` never yields PARTIAL
(it yields RECEIVED). -/
theorem nonexcluded_missing_partial_rule (feed_config : FeedConfig)
    (cob_date : Date) (record_count : Int)
    (h : cob_date.weekday < 5 ∨ feed_config.weekend_expected = true) :
    (record_count = 0 →
      determine_status feed_config cob_date record_count = FeedStatus.missing) ∧
    (0 < record_count → record_count < feed_config.min_records →
      determine_status feed_config cob_date record_count = FeedStatus.part) ∧
    (feed_config.min_records ≤ 0 → 0 < record_count →
      determine_status feed_config cob_date record_count = FeedStatus.received) := by
  have hex : ¬(5 ≤ cob_date.weekday ∧ ¬feed_config.weekend_expected) := by
    rcases h with h | h
    · exact fun hc => absurd hc.1 (not_le.mpr h)
    · exact fun hc => hc.2 (by simp [h])
  refine ⟨fun h0 => ?_, fun hpos hlt => ?_, fun hmin hpos => ?_⟩
  · unfold determine_status
    rw [if_neg hex, if_pos h0]
  · unfold determine_status
    rw [if_neg hex, if_neg (by omega), if_pos hlt]
  · unfold determine_status
    rw [if_neg hex, if_neg (by omega), if_neg (by omega)]

/-- Witness for C2: the Orders feed (min 500) on a Tuesday (day 1) with
320 records is PARTIAL — the spec's own scenario. -/
theorem nonexcluded_missing_partial_rule_witness :
    determine_status ordersConfig ⟨1⟩ 320 = FeedStatus.part :=
  (nonexcluded_missing_partial_rule ordersConfig ⟨1⟩ 320
    (Or.inl (by decide))).2.1 (by decide) (by decide)

/-- C3. The code never returns DELAYED: `_determine_status` takes no
observation time and has no tolerance check (only a comment noting the
missing logic).  Concretely: the Orders feed on a Tuesday with 600 records
observed at 15:00 (second 54000) — outside the `10:30 ± 45min` window, as
`is_within_tolerance` itself reports — still yields RECEIVED, where the
claim requires DELAYED. -/
theorem determine_status_never_delayed :
    (∀ (feed_config : FeedConfig) (cob_date : Date) (record_count : Int),
      (determine_status feed_config cob_date record_count ==
        FeedStatus.delayed) = false) ∧
    determine_status ordersConfig ⟨1⟩ 600 = FeedStatus.received ∧
    is_within_tolerance ordersConfig.expected_time ⟨⟨1⟩, 54000⟩
      ordersConfig.tolerance_minutes = false := by
  refine ⟨fun feed_config cob_date record_count => ?_, by decide, by decide⟩
  unfold determine_status
  split
  · split <;> rfl
  · split
    · rfl
    · split <;> rfl

/-- C10. `is_within_tolerance` is total by construction (it returns a
`Bool` for every input), and on any expected-time string that fails to
parse as `H:M` it returns `false` rather than propagating the error. -/
theorem is_within_tolerance_parse_failure (expected_time : String)
    (actual_time : Timestamp) (tolerance_minutes : Int)
    (h : parse_time_string expected_time = none) :
    is_within_tolerance expected_time actual_time tolerance_minutes = false := by
  unfold is_within_tolerance
  rw [h]

/-- Witness for C10: a malformed expected time returns `false`. -/
theorem is_within_tolerance_parse_failure_witness :
    is_within_tolerance "not a time" ⟨⟨1⟩, 36000⟩ 60 = false :=
  is_within_tolerance_parse_failure "not a time" ⟨⟨1⟩, 36000⟩ 60 (by decide)

/-- After an upsert, the store contains a record for the written key holding
the written values. -/
theorem update_feed_status_mem (feed_config : FeedConfig) (cob_date : Date)
    (status : FeedStatus) (record_count : Int) (now : Int)
    (error_message : Option String) (store : List FeedStatusRecord) :
    ∃ r ∈ update_feed_status feed_config cob_date status record_count now
        error_message store,
      r.feed_name = feed_config.name ∧ r.cob_date = cob_date ∧
      r.status = status ∧ r.record_count = record_count ∧
      r.error_message = error_message := by
  induction store with
  | nil =>
    exact ⟨newRecord feed_config cob_date status record_count now error_message,
      by simp [update_feed_status], rfl, rfl, rfl, rfl, rfl⟩
  | cons r rs ih =>
    by_cases h : r.feed_name = feed_config.name ∧ r.cob_date = cob_date
    · refine ⟨overwrite status record_count now error_message r, ?_,
        h.1, h.2, rfl, rfl, rfl⟩
      simp [update_feed_status, h]
    · obtain ⟨r', hr', hp⟩ := ih
      refine ⟨r', ?_, hp⟩
      simp only [update_feed_status, if_neg h]
      exact List.mem_cons_of_mem _ hr'

/-- C4. When the source-count lookup raises, `check_feed_status` catches
the exception: the returned result is FAILED with record count 0 and the
error message attached, and the store holds a matching FAILED record — the
exception is converted, never propagated (the function is total). -/
theorem check_feed_status_lookup_failure (feed_config : FeedConfig)
    (cob_date : Date) (e : String) (now : Int)
    (store : List FeedStatusRecord) :
    (check_feed_status true feed_config cob_date (Except.error e) now
        store).2.status = FeedStatus.failed ∧
    (check_feed_status true feed_config cob_date (Except.error e) now
        store).2.record_count = 0 ∧
    (check_feed_status true feed_config cob_date (Except.error e) now
        store).2.error = some e ∧
    ∃ r ∈ ((check_feed_status true feed_config cob_date (Except.error e) now
        store).1).1,
      r.feed_name = feed_config.name ∧ r.cob_date = cob_date ∧
      r.status = FeedStatus.failed ∧ r.record_count = 0 ∧
      r.error_message = some e := by
  refine ⟨rfl, rfl, rfl, ?_⟩
  simpa [check_feed_status, update_feed_status_try] using
    update_feed_status_mem feed_config cob_date FeedStatus.failed 0 now
      (some e) store

/-- C9, amended. A failing store write is attempted exactly once — the
source has no retry — and the failure is swallowed: the store is left
unchanged and the returned evaluation is identical to the one with a
healthy store (in particular the verdict is not re-marked FAILED), so
nothing propagates out of the sweep. -/
theorem persistence_failure_single_attempt (feed_config : FeedConfig)
    (cob_date : Date) (lookup : Except String Int) (now : Int)
    (store : List FeedStatusRecord) :
    ((check_feed_status false feed_config cob_date lookup now store).1).2
      = 1 ∧
    ((check_feed_status false feed_config cob_date lookup now store).1).1
      = store ∧
    (check_feed_status false feed_config cob_date lookup now store).2 =
      (check_feed_status true feed_config cob_date lookup now store).2 := by
  cases lookup <;> simp [check_feed_status, update_feed_status_try]

/-- Counterexample to C9 as stated: with the store write failing, the Orders
feed on a Tuesday with 600 records makes exactly one write attempt (no
retry) and the evaluation's verdict stays RECEIVED instead of FAILED. -/
theorem persistence_failure_counterexample :
    ((check_feed_status false ordersConfig ⟨1⟩ (Except.ok 600) 0 []).1).2
      = 1 ∧
    (check_feed_status false ordersConfig ⟨1⟩ (Except.ok 600) 0 []).2.status
      = FeedStatus.received := by
  constructor <;> rfl

/-- Counterexample to C7 as stated: a RECEIVED verdict with the email
channel enabled still produces a dispatch attempt — `send_alert` has no
anomaly gating at all. -/
theorem send_alert_received_counterexample :
    send_alert ⟨true, false⟩ "Order Processing" "received" "2024-01-02" 600
        none =
      [(Channel.email,
        { feed_name := "Order Processing"
          status := "received"
          cob_date := "2024-01-02"
          record_count := 600
          error_message := none })] := rfl

/-- C7, amended. `send_alert` dispatches unconditionally: the channels
attempted depend only on which channels are enabled, never on the status
verdict, the record count, the error, or any previous verdict or re-alert
interval (no such gating exists in the dispatcher). -/
theorem send_alert_unconditional (channels : AlertChannels)
    (feed_name cob_date : String) (s1 s2 : String) (c1 c2 : Int)
    (e1 e2 : Option String) :
    (send_alert channels feed_name s1 cob_date c1 e1).map Prod.fst =
      (send_alert channels feed_name s2 cob_date c2 e2).map Prod.fst := by
  obtain ⟨em, sl⟩ := channels
  cases em <;> cases sl <;> simp [send_alert]

/-- Unfolding `keyRecords` on a cons: keep the head exactly when it matches the key. -/
theorem keyRecords_cons (r : FeedStatusRecord) (rs : List FeedStatusRecord)
    (name : String) (cob : Date) :
    keyRecords (r :: rs) name cob =
      if r.feed_name = name ∧ r.cob_date = cob then
        r :: keyRecords rs name cob
      else keyRecords rs name cob := by
  by_cases h : r.feed_name = name ∧ r.cob_date = cob <;>
    simp [keyRecords, List.filter_cons, h]

/-- An upsert leaves the records of every other key untouched. -/
theorem keyRecords_update_other {feed_config : FeedConfig} {cob_date : Date}
    (status : FeedStatus) (record_count : Int) (now : Int)
    (error_message : Option String) (store : List FeedStatusRecord)
    {name : String} {cob : Date}
    (h : feed_config.name ≠ name ∨ cob_date ≠ cob) :
    keyRecords (update_feed_status feed_config cob_date status record_count
        now error_message store) name cob =
      keyRecords store name cob := by
  induction store with
  | nil =>
    have hn : ¬((newRecord feed_config cob_date status record_count now
        error_message).feed_name = name ∧
        (newRecord feed_config cob_date status record_count now
          error_message).cob_date = cob) := by
      simp only [newRecord]
      rcases h with h | h
      · exact fun hc => h hc.1
      · exact fun hc => h hc.2
    simp [update_feed_status, keyRecords, List.filter_cons, hn]
  | cons r rs ih =>
    by_cases hm : r.feed_name = feed_config.name ∧ r.cob_date = cob_date
    · have hrq : ¬(r.feed_name = name ∧ r.cob_date = cob) := by
        rcases h with h | h
        · exact fun hq => h (hm.1.symm.trans hq.1)
        · exact fun hq => h (hm.2.symm.trans hq.2)
      have how : ¬((overwrite status record_count now error_message
          r).feed_name = name ∧
          (overwrite status record_count now error_message r).cob_date
            = cob) := by
        simpa [overwrite] using hrq
      simp only [update_feed_status, if_pos hm]
      rw [keyRecords_cons, if_neg how, keyRecords_cons, if_neg hrq]
    · simp only [update_feed_status, if_neg hm]
      rw [keyRecords_cons, keyRecords_cons, ih]

/-- An upsert on its own key: the first matching record is overwritten, or a
new record appears when the key was absent. -/
theorem keyRecords_update_self (feed_config : FeedConfig) (cob_date : Date)
    (status : FeedStatus) (record_count : Int) (now : Int)
    (error_message : Option String) (store : List FeedStatusRecord) :
    keyRecords (update_feed_status feed_config cob_date status record_count
        now error_message store) feed_config.name cob_date =
      match keyRecords store feed_config.name cob_date with
      | [] => [newRecord feed_config cob_date status record_count now
          error_message]
      | r :: rs => overwrite status record_count now error_message r :: rs := by
  induction store with
  | nil =>
    simp [update_feed_status, keyRecords, List.filter_cons, newRecord]
  | cons r rs ih =>
    by_cases hm : r.feed_name = feed_config.name ∧ r.cob_date = cob_date
    · have hm' : (overwrite status record_count now error_message
          r).feed_name = feed_config.name ∧
          (overwrite status record_count now error_message r).cob_date
            = cob_date := by
        simpa [overwrite] using hm
      simp only [update_feed_status, if_pos hm]
      rw [keyRecords_cons, if_pos hm', keyRecords_cons, if_pos hm]
    · simp only [update_feed_status, if_neg hm]
      rw [keyRecords_cons, if_neg hm, keyRecords_cons, if_neg hm, ih]

/-- An upsert preserves key uniqueness. -/
theorem uniqueKeys_update (feed_config : FeedConfig) (cob_date : Date)
    (status : FeedStatus) (record_count : Int) (now : Int)
    (error_message : Option String) (store : List FeedStatusRecord)
    (h : uniqueKeys store) :
    uniqueKeys (update_feed_status feed_config cob_date status record_count
      now error_message store) := by
  intro name cob
  by_cases hk : feed_config.name = name ∧ cob_date = cob
  · obtain ⟨h1, h2⟩ := hk
    subst h1
    subst h2
    rw [keyRecords_update_self]
    have hlen := h feed_config.name cob_date
    cases hkr : keyRecords store feed_config.name cob_date with
    | nil => simp
    | cons r rs =>
      rw [hkr] at hlen
      simpa using hlen
  · rw [keyRecords_update_other _ _ _ _ _ (not_and_or.mp hk)]
    exact h name cob

/-- Any sequence of upserts starting from a key-unique store keeps the store
key-unique. -/
theorem uniqueKeys_applyOps (ops : List UpsertOp)
    (store : List FeedStatusRecord) (h : uniqueKeys store) :
    uniqueKeys (applyOps ops store) := by
  induction ops generalizing store with
  | nil => exact h
  | cons op rest ih =>
    exact ih _ (uniqueKeys_update op.feed_config op.cob_date op.status
      op.record_count op.now op.error_message store h)

/-- Re-applying the identical upsert is the identity on the store. -/
theorem update_feed_status_idem (feed_config : FeedConfig) (cob_date : Date)
    (status : FeedStatus) (record_count : Int) (now : Int)
    (error_message : Option String) (store : List FeedStatusRecord) :
    update_feed_status feed_config cob_date status record_count now
        error_message
      (update_feed_status feed_config cob_date status record_count now
        error_message store) =
    update_feed_status feed_config cob_date status record_count now
      error_message store := by
  induction store with
  | nil =>
    simp [update_feed_status, newRecord, overwrite]
  | cons r rs ih =>
    by_cases hm : r.feed_name = feed_config.name ∧ r.cob_date = cob_date
    · have hm' : (overwrite status record_count now error_message
          r).feed_name = feed_config.name ∧
          (overwrite status record_count now error_message r).cob_date
            = cob_date := by
        simpa [overwrite] using hm
      simp only [update_feed_status, if_pos hm, if_pos hm']
      simp [overwrite]
    · simp only [update_feed_status, if_neg hm]
      rw [ih]

/-- C5. The status-store upsert is key-unique and idempotent: any
sequence of upserts from the empty store leaves at most one record per
(feed name, COB date) key; applying the same upsert twice equals applying
it once; and after the upsert exactly one record holds its key, carrying
the upsert's verdict, count and error message. -/
theorem upsert_idempotent_key_unique (ops : List UpsertOp) (op : UpsertOp) :
    uniqueKeys (applyOps ops []) ∧
    applyOp op (applyOp op (applyOps ops [])) = applyOp op (applyOps ops []) ∧
    (keyRecords (applyOp op (applyOps ops [])) op.feed_config.name
      op.cob_date).length = 1 ∧
    ∀ r ∈ keyRecords (applyOp op (applyOps ops [])) op.feed_config.name
        op.cob_date,
      r.status = op.status ∧ r.record_count = op.record_count ∧
      r.error_message = op.error_message := by
  have hu : uniqueKeys (applyOps ops []) :=
    uniqueKeys_applyOps ops [] (by intro n c; simp [keyRecords])
  have hself := keyRecords_update_self op.feed_config op.cob_date op.status
    op.record_count op.now op.error_message (applyOps ops [])
  refine ⟨hu, by
    simpa [applyOp] using update_feed_status_idem op.feed_config op.cob_date
      op.status op.record_count op.now op.error_message (applyOps ops []),
    ?_, ?_⟩
  · show (keyRecords (update_feed_status op.feed_config op.cob_date op.status
      op.record_count op.now op.error_message (applyOps ops []))
      op.feed_config.name op.cob_date).length = 1
    rw [hself]
    cases hkr : keyRecords (applyOps ops []) op.feed_config.name op.cob_date
      with
    | nil => rfl
    | cons r rs =>
      have hlen := hu op.feed_config.name op.cob_date
      rw [hkr] at hlen
      have : rs = [] := by
        cases rs with
        | nil => rfl
        | cons x xs => simp at hlen
      subst this
      rfl
  · intro r hr
    rw [show applyOp op (applyOps ops []) = update_feed_status op.feed_config
      op.cob_date op.status op.record_count op.now op.error_message
      (applyOps ops []) from rfl, hself] at hr
    cases hkr : keyRecords (applyOps ops []) op.feed_config.name op.cob_date
      with
    | nil =>
      rw [hkr] at hr
      simp at hr
      subst hr
      exact ⟨rfl, rfl, rfl⟩
    | cons x xs =>
      have hlen := hu op.feed_config.name op.cob_date
      rw [hkr] at hlen
      have hxs : xs = [] := by
        cases xs with
        | nil => rfl
        | cons y ys => simp at hlen
      subst hxs
      rw [hkr] at hr
      simp at hr
      subst hr
      exact ⟨rfl, rfl, rfl⟩

/-- Witness for C5: the sample upsert applied to the empty store — a second
identical application is the identity, its key holds exactly one record,
and that record carries the upsert's values. -/
theorem upsert_idempotent_key_unique_witness :
    applyOp op0 (applyOp op0 (applyOps [] [])) = applyOp op0 (applyOps [] []) ∧
    (keyRecords (applyOp op0 (applyOps [] [])) op0.feed_config.name
      op0.cob_date).length = 1 ∧
    (newRecord op0.feed_config op0.cob_date op0.status op0.record_count
      op0.now op0.error_message).status = op0.status :=
  ⟨(upsert_idempotent_key_unique [] op0).2.1,
   (upsert_idempotent_key_unique [] op0).2.2.1,
   ((upsert_idempotent_key_unique [] op0).2.2.2 _ (List.mem_singleton.mpr
     rfl)).1⟩

/-- Unfolding `insert_or_replace_status` on a cons: a head conflicting on
the key is dropped, any other head is kept. -/
theorem ior_cons (feed_config : FeedConfig) (cob_date : Date)
    (status : FeedStatus) (record_count : Int) (now : Int)
    (r : FeedStatusRecord) (rs : List FeedStatusRecord) :
    insert_or_replace_status feed_config cob_date status record_count now
        (r :: rs) =
      if r.feed_name = feed_config.name ∧ r.cob_date = cob_date then
        insert_or_replace_status feed_config cob_date status record_count now
          rs
      else
        r :: insert_or_replace_status feed_config cob_date status record_count
          now rs := by
  by_cases hm : r.feed_name = feed_config.name ∧ r.cob_date = cob_date
  · simp [insert_or_replace_status, List.filter_cons, hm]
  · rcases not_and_or.mp hm with h | h <;>
      simp [insert_or_replace_status, List.filter_cons, hm, h]

/-- An `INSERT OR REPLACE` on its own key leaves exactly the fresh row for
that key. -/
theorem keyRecords_ior_self (feed_config : FeedConfig) (cob_date : Date)
    (status : FeedStatus) (record_count : Int) (now : Int)
    (store : List FeedStatusRecord) :
    keyRecords (insert_or_replace_status feed_config cob_date status
        record_count now store) feed_config.name cob_date =
      [newRecord feed_config cob_date status record_count now none] := by
  induction store with
  | nil =>
    simp [insert_or_replace_status, keyRecords, List.filter_cons, newRecord]
  | cons r rs ih =>
    rw [ior_cons]
    by_cases hm : r.feed_name = feed_config.name ∧ r.cob_date = cob_date
    · rw [if_pos hm]
      exact ih
    · rw [if_neg hm, keyRecords_cons, if_neg hm]
      exact ih

/-- An `INSERT OR REPLACE` leaves the records of every other key
untouched. -/
theorem keyRecords_ior_other {feed_config : FeedConfig} {cob_date : Date}
    (status : FeedStatus) (record_count : Int) (now : Int)
    (store : List FeedStatusRecord) {name : String} {cob : Date}
    (h : feed_config.name ≠ name ∨ cob_date ≠ cob) :
    keyRecords (insert_or_replace_status feed_config cob_date status
        record_count now store) name cob =
      keyRecords store name cob := by
  induction store with
  | nil =>
    have hn : ¬((newRecord feed_config cob_date status record_count now
        none).feed_name = name ∧
        (newRecord feed_config cob_date status record_count now
          none).cob_date = cob) := by
      simp only [newRecord]
      rcases h with h | h
      · exact fun hc => h hc.1
      · exact fun hc => h hc.2
    simp [insert_or_replace_status, keyRecords, List.filter_cons, hn]
  | cons r rs ih =>
    rw [ior_cons]
    by_cases hm : r.feed_name = feed_config.name ∧ r.cob_date = cob_date
    · have hrq : ¬(r.feed_name = name ∧ r.cob_date = cob) := by
        rcases h with h | h
        · exact fun hq => h (hm.1.symm.trans hq.1)
        · exact fun hq => h (hm.2.symm.trans hq.2)
      rw [if_pos hm, keyRecords_cons, if_neg hrq]
      exact ih
    · rw [if_neg hm, keyRecords_cons, keyRecords_cons, ih]

/-- Replacing identical values into two stores with equal records at some
query key yields equal records at that key. -/
theorem keyRecords_ior_congr (feed_config : FeedConfig) (cob_date : Date)
    (status : FeedStatus) (record_count : Int) (now : Int)
    (s1 s2 : List FeedStatusRecord) (name : String) (cob : Date)
    (hs : keyRecords s1 name cob = keyRecords s2 name cob) :
    keyRecords (insert_or_replace_status feed_config cob_date status
        record_count now s1) name cob =
      keyRecords (insert_or_replace_status feed_config cob_date status
        record_count now s2) name cob := by
  by_cases hk : feed_config.name = name ∧ cob_date = cob
  · obtain ⟨h1, h2⟩ := hk
    subst h1
    subst h2
    rw [keyRecords_ior_self, keyRecords_ior_self]
  · rw [keyRecords_ior_other _ _ _ _ (not_and_or.mp hk),
      keyRecords_ior_other _ _ _ _ (not_and_or.mp hk)]
    exact hs

/-- Unfolding one step of the per-feed sweep loop. -/
theorem sweep_feeds_cons (feed_config : FeedConfig) (feeds : List FeedConfig)
    (lookup : String → Except String Int) (cob_date : Date) (now : Int)
    (store : List FeedStatusRecord) :
    sweep_feeds (feed_config :: feeds) lookup cob_date now store =
      sweep_feeds feeds lookup cob_date now
        (main_check_feed_status feed_config cob_date
          (lookup feed_config.name) now store).1 := rfl

/-- One sweep step touches only its own feed's key (a failing lookup writes
nothing at all), and for that key depends on the lookup only through the
feed's own name. -/
theorem keyRecords_sweep_step (feed_config : FeedConfig)
    (lk1 lk2 : String → Except String Int) (cob_date : Date) (now : Int)
    (s1 s2 : List FeedStatusRecord) (name : String) (cob : Date)
    (hlk : lk1 name = lk2 name)
    (hs : keyRecords s1 name cob = keyRecords s2 name cob) :
    keyRecords (main_check_feed_status feed_config cob_date
        (lk1 feed_config.name) now s1).1 name cob =
      keyRecords (main_check_feed_status feed_config cob_date
        (lk2 feed_config.name) now s2).1 name cob := by
  by_cases hn : feed_config.name = name
  · subst hn
    rw [hlk]
    cases lk2 feed_config.name with
    | ok n =>
      simp only [main_check_feed_status]
      exact keyRecords_ior_congr _ _ _ _ _ _ _ _ _ hs
    | error e =>
      simp only [main_check_feed_status]
      exact hs
  · cases lk1 feed_config.name with
    | ok n1 =>
      cases lk2 feed_config.name with
      | ok n2 =>
        simp only [main_check_feed_status]
        rw [keyRecords_ior_other _ _ _ _ (Or.inl hn),
          keyRecords_ior_other _ _ _ _ (Or.inl hn)]
        exact hs
      | error e2 =>
        simp only [main_check_feed_status]
        rw [keyRecords_ior_other _ _ _ _ (Or.inl hn)]
        exact hs
    | error e1 =>
      cases lk2 feed_config.name with
      | ok n2 =>
        simp only [main_check_feed_status]
        rw [keyRecords_ior_other _ _ _ _ (Or.inl hn)]
        exact hs
      | error e2 =>
        simp only [main_check_feed_status]
        exact hs

/-- Sweeping the same feeds over two lookups that agree on one feed name
leaves that name's records equal. -/
theorem sweep_feeds_isolated (feeds : List FeedConfig)
    (lk1 lk2 : String → Except String Int) (cob_date : Date) (now : Int)
    (s1 s2 : List FeedStatusRecord) (name : String) (cob : Date)
    (hlk : lk1 name = lk2 name)
    (hs : keyRecords s1 name cob = keyRecords s2 name cob) :
    keyRecords (sweep_feeds feeds lk1 cob_date now s1) name cob =
      keyRecords (sweep_feeds feeds lk2 cob_date now s2) name cob := by
  induction feeds generalizing s1 s2 with
  | nil => exact hs
  | cons feed_config rest ih =>
    rw [sweep_feeds_cons, sweep_feeds_cons]
    exact ih _ _ (keyRecords_sweep_step feed_config lk1 lk2 cob_date now s1 s2
      name cob hlk hs)

/-- C6. Sweep isolation: during `check_all_feeds`, the persisted records
for a feed's key depend on the source lookup only through that feed's own
name — injecting a lookup failure for any other feed (indeed, changing the
lookup arbitrarily away from this name) leaves this feed's evaluation and
persisted verdict unchanged.  Per-feed failures are caught, never aborting
the remaining feeds (every sweep step is total). -/
theorem check_all_feeds_isolated (feeds : List FeedConfig)
    (lk1 lk2 : String → Except String Int) (wall : Wallclock) (now : Int)
    (store : List FeedStatusRecord) (name : String) (cob : Date)
    (hlk : lk1 name = lk2 name) :
    keyRecords (check_all_feeds feeds lk1 wall now store) name cob =
      keyRecords (check_all_feeds feeds lk2 wall now store) name cob :=
  sweep_feeds_isolated feeds lk1 lk2 ⟨wall.days - 1⟩ now store store name cob
    hlk rfl

/-- Witness for C6: a lookup timeout injected for "Customer Transactions"
leaves the persisted records of "Order Processing" identical to the
all-healthy sweep. -/
theorem check_all_feeds_isolated_witness :
    keyRecords (check_all_feeds [customersConfig, ordersConfig]
        (fun nm => if nm = "Customer Transactions" then
          Except.error "timeout" else Except.ok 600)
        ⟨100, 12⟩ 0 []) "Order Processing" ⟨99⟩ =
      keyRecords (check_all_feeds [customersConfig, ordersConfig]
        (fun _ => Except.ok 600) ⟨100, 12⟩ 0 []) "Order Processing" ⟨99⟩ :=
  check_all_feeds_isolated [customersConfig, ordersConfig] _ _ ⟨100, 12⟩ 0 []
    "Order Processing" ⟨99⟩ (by rw [if_neg (by decide)])

/-- An `INSERT OR REPLACE` establishes its own key in the store. -/
theorem keyExists_ior_self (feed_config : FeedConfig) (cob_date : Date)
    (status : FeedStatus) (record_count : Int) (now : Int)
    (store : List FeedStatusRecord) :
    keyExists (insert_or_replace_status feed_config cob_date status
      record_count now store) feed_config.name cob_date :=
  ⟨newRecord feed_config cob_date status record_count now none,
    List.mem_append_right _ (List.mem_singleton.mpr rfl), rfl, rfl⟩

/-- An `INSERT OR REPLACE` never removes a key from the store: it only
deletes rows of its own key, for which it inserts a fresh row. -/
theorem keyExists_ior_mono (feed_config : FeedConfig) (cob_date : Date)
    (status : FeedStatus) (record_count : Int) (now : Int)
    {store : List FeedStatusRecord} {name : String} {cob : Date}
    (h : keyExists store name cob) :
    keyExists (insert_or_replace_status feed_config cob_date status
      record_count now store) name cob := by
  by_cases hk : feed_config.name = name ∧ cob_date = cob
  · exact ⟨newRecord feed_config cob_date status record_count now none,
      List.mem_append_right _ (List.mem_singleton.mpr rfl), hk.1, hk.2⟩
  · obtain ⟨r, hr, hp⟩ := h
    have hnc : ¬(r.feed_name = feed_config.name ∧ r.cob_date = cob_date) :=
      fun hc => hk ⟨hc.1.symm.trans hp.1, hc.2.symm.trans hp.2⟩
    exact ⟨r, List.mem_append_left _
      (List.mem_filter.mpr ⟨hr, by simp [hnc]⟩), hp⟩

/-- The per-feed sweep loop never removes a key from the store. -/
theorem keyExists_sweep_mono (feeds : List FeedConfig)
    (lookup : String → Except String Int) (cob_date : Date) (now : Int)
    {store : List FeedStatusRecord} {name : String} {cob : Date}
    (h : keyExists store name cob) :
    keyExists (sweep_feeds feeds lookup cob_date now store) name cob := by
  induction feeds generalizing store with
  | nil => exact h
  | cons feed_config rest ih =>
    rw [sweep_feeds_cons]
    apply ih
    cases lookup feed_config.name with
    | ok n =>
      simp only [main_check_feed_status]
      exact keyExists_ior_mono _ _ _ _ _ h
    | error e =>
      simp only [main_check_feed_status]
      exact h

/-- After the sweep loop, every feed of the list whose source lookup
succeeds has a record at the target COB date (a failing lookup persists
nothing for its feed). -/
theorem sweep_feeds_covers (feeds : List FeedConfig)
    (lookup : String → Except String Int) (cob_date : Date) (now : Int)
    (store : List FeedStatusRecord) (feed_config : FeedConfig) (n : Int)
    (hmem : feed_config ∈ feeds)
    (hok : lookup feed_config.name = Except.ok n) :
    keyExists (sweep_feeds feeds lookup cob_date now store)
      feed_config.name cob_date := by
  induction feeds generalizing store with
  | nil => cases hmem
  | cons c rest ih =>
    rw [sweep_feeds_cons]
    rcases List.mem_cons.mp hmem with rfl | h'
    · apply keyExists_sweep_mono
      rw [hok]
      simp only [main_check_feed_status]
      exact keyExists_ior_self _ _ _ _ _ _
    · exact ih _ h'

/-- Counterexample to C8 as stated: at trigger hour 12 (after the 6:00
cutoff) the calendar rule resolves the COB date to today (day 100), but the
sweep persists its record at plain today-minus-one (day 99) — the sweep's
target is not resolved via the calendar rule. -/
theorem check_all_feeds_target_counterexample :
    get_cob_date ⟨100, 12⟩ = ⟨100⟩ ∧
    (check_all_feeds [ordersConfig] (fun _ => Except.ok 600) ⟨100, 12⟩ 0
      []).map (fun r => r.cob_date) = [⟨99⟩] := by
  constructor
  · rfl
  · decide

/-- C8, amended. The sweep's target COB date is always plain
today-minus-one: `check_all_feeds` computes `yesterday` directly and never
calls `get_cob_date`.  This coincides with the calendar rule's resolution
exactly when the trigger's wall-clock hour is before the 6:00 cutoff, and
every registered feed whose source lookup succeeds has a record persisted
at that target date (on a lookup failure the sweep's per-feed evaluator
returns FAILED without persisting anything). -/
theorem check_all_feeds_target_yesterday (feeds : List FeedConfig)
    (lookup : String → Except String Int) (wall : Wallclock) (now : Int)
    (store : List FeedStatusRecord) (feed_config : FeedConfig) (n : Int)
    (hmem : feed_config ∈ feeds)
    (hok : lookup feed_config.name = Except.ok n) :
    (get_cob_date wall = ⟨wall.days - 1⟩ ↔ wall.hour < 6) ∧
    keyExists (check_all_feeds feeds lookup wall now store)
      feed_config.name ⟨wall.days - 1⟩ := by
  constructor
  · unfold get_cob_date
    by_cases h : wall.hour < 6
    · simp [h]
    · simp only [if_neg h, Date.mk.injEq]
      constructor
      · intro he
        omega
      · intro hh
        exact absurd hh h
  · exact sweep_feeds_covers feeds lookup ⟨wall.days - 1⟩ now store
      feed_config n hmem hok

/-- Witness for C8: a sweep triggered at hour 3 (before the cutoff) over the
Orders feed — the calendar rule agrees with the target, and a record is
persisted at the previous day. -/
theorem check_all_feeds_target_yesterday_witness :
    (get_cob_date ⟨100, 3⟩ = ⟨100 - 1⟩ ↔ (3 : Int) < 6) ∧
    keyExists (check_all_feeds [ordersConfig] (fun _ => Except.ok 600)
      ⟨100, 3⟩ 0 []) ordersConfig.name ⟨100 - 1⟩ :=
  check_all_feeds_target_yesterday [ordersConfig] (fun _ => Except.ok 600)
    ⟨100, 3⟩ 0 [] ordersConfig 600 (List.mem_singleton.mpr rfl) rfl
